import Mathlib

/-!
Verification of the phoenix-contracts DEX core (constant-product liquidity
pools composed by a multihop router) and of the token-vesting contract.

The pool ("pair") and router ("multihop") implementations are not part of the
source tree (only their test suites are), so those components are modelled
from the specification document; every such definition carries a doc comment
beginning "Modelled from the spec:".  The vesting contract
(contracts/vesting/src/contract.rs) is present in the source tree and is
embedded directly from the code.

Machine integers (`i128`, `u128`) are modelled as `Int` / `Nat`; every
operation rejects non-positive quantities before any arithmetic, exactly as
the contracts do, so overflow wrapping is never reached in the modelled
behaviour.  Fallible contract calls return `Except`: the Soroban runtime
unwinds the whole transaction on `panic_with_error`, so a returned `.error`
carries no updated state — this is the transactional (all-or-nothing)
semantics the spec mandates.
-/

/-- Modelled from the spec: the error taxonomy of the DEX core (§7 of the
spec); the pool and router sources are absent from the tree, so the exact
discriminants come from the spec's error list. -/
inductive ContractError where
  | InvalidAmount
  | EmptyPool
  | SlippageExceeded
  | SpreadExceeded
  | AssetMismatch
  | InsufficientBalance
  | InvalidRoute
  | OperationsEmpty
  | PoolNotFound
  | Expired
deriving DecidableEq, Repr

/-- Modelled from the spec: one liquidity pool's persistent state (§3 of the
spec).  Asset identifiers are abstracted as naturals; `i128` amounts are
`Int` and the bps configuration fields are `Int` as well. -/
structure Pool where
  asset_a : Nat
  asset_b : Nat
  reserve_a : Int
  reserve_b : Int
  total_shares : Int
  swap_fee_bps : Int
  max_allowed_slippage_bps : Int
  max_allowed_spread_bps : Int
deriving DecidableEq, Repr

/-- Modelled from the spec: initial share issuance when seeding an empty pool
— the integer square root of the product of the two deposited amounts (the
geometric mean, one of the deterministic strictly-positive choices the spec
allows; it matches the test `provide_liqudity`, where a 100/100 deposit mints
exactly 100 shares). -/
def initialShares (amount_a amount_b : Int) : Int :=
  Int.ofNat (Nat.sqrt (amount_a.toNat * amount_b.toNat))

/-- Modelled from the spec: `provide_liquidity` (§4.2).  Returns the updated
pool together with `(amount_a, amount_b, shares_minted)`.
* optional `deadline` versus the current ledger time `now`: if past, `Expired`;
* any present desired amount must be strictly positive (`InvalidAmount`);
* empty pool (`total_shares == 0`): both desired amounts must be present
  (single-asset seeding fails with `InvalidAmount`); the deposit is taken
  verbatim and `initialShares` are minted;
* non-empty pool: the matching amount for the other side is computed
  proportionally to current reserves (floor division); when both sides are
  given the smaller-ratio side is taken verbatim so that the deposit never
  exceeds either desired amount; no internal swap is performed.  The price
  ratio is preserved by construction of the proportional computation;
* each realized amount must reach its (optional, default 0) minimum, else
  `SlippageExceeded`;
* shares minted on a non-empty pool: `total_shares * amount_a / reserve_a`.
An `.error` result carries no pool: the transaction rolls back. -/
def provideLiquidity (p : Pool) (desired_a min_a desired_b min_b : Option Int)
    (deadline : Option Nat) (now : Nat) :
    Except ContractError (Pool × Int × Int × Int) :=
  if (deadline.map (fun d => decide (d < now))).getD false then
    .error .Expired
  else if (desired_a.map (fun a => decide (a ≤ 0))).getD false then
    .error .InvalidAmount
  else if (desired_b.map (fun b => decide (b ≤ 0))).getD false then
    .error .InvalidAmount
  else if p.total_shares = 0 then
    match desired_a, desired_b with
    | some da, some db =>
      if da < (min_a.getD 0) ∨ db < (min_b.getD 0) then
        .error .SlippageExceeded
      else
        let sh := initialShares da db
        .ok ({ p with reserve_a := da, reserve_b := db, total_shares := sh }, da, db, sh)
    | _, _ => .error .InvalidAmount
  else
    match desired_a, desired_b with
    | none, none => .error .InvalidAmount
    | some da, some db =>
      let b_match := da * p.reserve_b / p.reserve_a
      let amounts := if b_match ≤ db then (da, b_match)
                     else (db * p.reserve_a / p.reserve_b, db)
      if amounts.1 < (min_a.getD 0) ∨ amounts.2 < (min_b.getD 0) then
        .error .SlippageExceeded
      else
        let sh := p.total_shares * amounts.1 / p.reserve_a
        .ok ({ p with reserve_a := p.reserve_a + amounts.1,
                      reserve_b := p.reserve_b + amounts.2,
                      total_shares := p.total_shares + sh }, amounts.1, amounts.2, sh)
    | some da, none =>
      let ab := da * p.reserve_b / p.reserve_a
      if da < (min_a.getD 0) ∨ ab < (min_b.getD 0) then
        .error .SlippageExceeded
      else
        let sh := p.total_shares * da / p.reserve_a
        .ok ({ p with reserve_a := p.reserve_a + da,
                      reserve_b := p.reserve_b + ab,
                      total_shares := p.total_shares + sh }, da, ab, sh)
    | none, some db =>
      let aa := db * p.reserve_a / p.reserve_b
      if aa < (min_a.getD 0) ∨ db < (min_b.getD 0) then
        .error .SlippageExceeded
      else
        let sh := p.total_shares * aa / p.reserve_a
        .ok ({ p with reserve_a := p.reserve_a + aa,
                      reserve_b := p.reserve_b + db,
                      total_shares := p.total_shares + sh }, aa, db, sh)

/-- Modelled from the spec: `withdraw_liquidity` (§4.2).  Requires a strictly
positive share amount not exceeding `total_shares` (the withdrawer's balance
is at most `total_shares` by the closed-ledger invariant); pays out
`reserve * share_amount / total_shares` on each side (floor division, pool
favoured); enforces the caller's minimums (`SlippageExceeded`); burns the
shares and decreases the reserves.  An `.error` carries no pool. -/
def withdrawLiquidity (p : Pool) (share_amount min_a min_b : Int) :
    Except ContractError (Pool × Int × Int) :=
  if share_amount ≤ 0 then .error .InvalidAmount
  else if p.total_shares < share_amount then .error .InsufficientBalance
  else
    let amount_a := p.reserve_a * share_amount / p.total_shares
    let amount_b := p.reserve_b * share_amount / p.total_shares
    if amount_a < min_a ∨ amount_b < min_b then .error .SlippageExceeded
    else
      .ok ({ p with reserve_a := p.reserve_a - amount_a,
                    reserve_b := p.reserve_b - amount_b,
                    total_shares := p.total_shares - share_amount }, amount_a, amount_b)

/-- Modelled from the spec: a single-pool `swap` (§4.2).  Rejects
non-positive input, swaps only against a funded pool, and the offered asset
must be one of the pool's two assets (`AssetMismatch`).  Fee is taken on the
input (`amount * (10000 - swap_fee_bps) / 10000`), the output follows the
constant-product formula with floor division, must be strictly positive and
strictly below the ask-side reserve, and the relative deviation of the
effective price `amount_out / amount` from the pre-trade spot price
`r_out / r_in` may not exceed `max_allowed_spread_bps` (stated here cleared
of divisions: `(amount*r_out - amount_out*r_in) * 10000 ≤ bps * amount *
r_out`).  On success the offer reserve grows by `amount` and the ask reserve
shrinks by `amount_out`.  An `.error` carries no pool. -/
def poolSwapIn (p : Pool) (r_in r_out : Int) (amount : Int) :
    Except ContractError (Int × Int × Int) :=
  let after_fee := amount * (10000 - p.swap_fee_bps) / 10000
  let amount_out := r_out - (r_in * r_out) / (r_in + after_fee)
  if amount_out ≤ 0 ∨ r_out ≤ amount_out then .error .InvalidAmount
  else if p.max_allowed_spread_bps * (amount * r_out) <
      (amount * r_out - amount_out * r_in) * 10000 then
    .error .SpreadExceeded
  else
    .ok (r_in + amount, r_out - amount_out, amount_out)

/-- Modelled from the spec: `Pool.swap` dispatching on which side the offered
asset matches; see `poolSwapIn` for the arithmetic. -/
def poolSwap (p : Pool) (offer_asset : Nat) (amount : Int) :
    Except ContractError (Pool × Int) :=
  if amount ≤ 0 then .error .InvalidAmount
  else if p.total_shares = 0 then .error .EmptyPool
  else if offer_asset = p.asset_a then
    match poolSwapIn p p.reserve_a p.reserve_b amount with
    | .error e => .error e
    | .ok (r_in, r_out, amount_out) =>
      .ok ({ p with reserve_a := r_in, reserve_b := r_out }, amount_out)
  else if offer_asset = p.asset_b then
    match poolSwapIn p p.reserve_b p.reserve_a amount with
    | .error e => .error e
    | .ok (r_in, r_out, amount_out) =>
      .ok ({ p with reserve_b := r_in, reserve_a := r_out }, amount_out)
  else .error .AssetMismatch

/-- Modelled from the spec: one hop of a multihop route — the `Swap` value of
the multihop contract's storage, `{offer_asset, ask_asset}`. -/
structure SwapLeg where
  offer_asset : Nat
  ask_asset : Nat
deriving DecidableEq, Repr

/-- Modelled from the spec: whether a pool serves the (unordered) asset pair
`(x, y)` — the registry maps an unordered pair to its pool. -/
def poolServes (p : Pool) (x y : Nat) : Bool :=
  (p.asset_a == x && p.asset_b == y) || (p.asset_a == y && p.asset_b == x)

/-- Modelled from the spec: the pool-registry lookup `resolve(assetA, assetB)`
over a world of deployed pools, returning the index of the first pool serving
the pair. -/
def resolvePool (w : List Pool) (x y : Nat) : Option Nat :=
  w.findIdx? (fun p => poolServes p x y)

/-- Modelled from the spec: route chain continuity —
`leg[i].ask_asset == leg[i+1].offer_asset` for all consecutive legs. -/
def chainContinuous : List SwapLeg → Bool
  | [] => true
  | [_] => true
  | l₁ :: l₂ :: rest => l₁.ask_asset == l₂.offer_asset && chainContinuous (l₂ :: rest)

/-- Modelled from the spec: the ask asset of the final leg of a (non-empty)
route, represented as the head leg plus the remaining legs. -/
def lastAsk : SwapLeg → List SwapLeg → Nat
  | l, [] => l.ask_asset
  | _, l :: rest => lastAsk l rest

/-- Modelled from the spec: external token balances, indexed by asset
identifier and holder address. -/
def Balances : Type := Nat → Nat → Int

/-- Modelled from the spec: credit `delta` of asset `asset` to holder
`who` (a negative `delta` is a debit). -/
def creditBal (bal : Balances) (asset who : Nat) (delta : Int) : Balances :=
  fun a u => if a = asset ∧ u = who then bal a u + delta else bal a u

/-- Modelled from the spec: sequential execution of the hops of a route —
each leg resolves its pool via the registry (`PoolNotFound` when
unresolved), swaps the running amount against it, and feeds the output into
the next leg.  The world is threaded through, so a successful run returns
the world with every touched pool mutated. -/
def execHops (w : List Pool) (legs : List SwapLeg) (amount : Int) :
    Except ContractError (List Pool × Int) :=
  match legs with
  | [] => .ok (w, amount)
  | leg :: rest =>
    match resolvePool w leg.offer_asset leg.ask_asset with
    | none => .error .PoolNotFound
    | some i =>
      match w.get? i with
      | none => .error .PoolNotFound
      | some p =>
        match poolSwap p leg.offer_asset amount with
        | .error e => .error e
        | .ok (p', out) => execHops (w.set i p') rest out

/-- Modelled from the spec: `Router.swap` (§4.3).  Fails with
`OperationsEmpty` on an empty route and with `InvalidRoute` on a
discontinuous one; otherwise executes the hops in order.  On success the
initial amount of the first leg's offer asset is debited from the trader and
the final output of the last leg's ask asset is credited to the recipient
(intermediate outputs never settle to an external balance).  On any hop
failure the pre-call world and balances are returned unchanged — the
snapshot-and-restore realization of the source runtime's
abort-the-whole-transaction semantics. -/
def routerSwap (w : List Pool) (bal : Balances) (trader recipient : Nat)
    (legs : List SwapLeg) (amount : Int) :
    (List Pool × Balances) × Except ContractError Int :=
  match legs with
  | [] => ((w, bal), .error .OperationsEmpty)
  | leg :: rest =>
    if ¬ chainContinuous (leg :: rest) then ((w, bal), .error .InvalidRoute)
    else
      match execHops w (leg :: rest) amount with
      | .error e => ((w, bal), .error e)
      | .ok (w', out) =>
        let bal' := creditBal (creditBal bal leg.offer_asset trader (-amount))
          (lastAsk leg rest) recipient out
        ((w', bal'), .ok out)

/-- The error discriminants the vesting contract raises
(contracts/vesting/src/contract.rs); names as in its `ContractError`. -/
inductive VestingError where
  | InvalidMintAmount
  | MinterNotFound
  | NotAuthorized
  | NotEnoughCapacity
  | NotEnoughBalance
deriving DecidableEq, Repr

/-- `MinterInfo` of the vesting contract: the minter's address (abstracted as
a natural) and its remaining `mint_capacity : u128` (a `Nat`). -/
structure MinterInfo where
  address : Nat
  mint_capacity : Nat
deriving DecidableEq, Repr

/-- The vesting contract state reached by `mint` / `update_minter`: the
stored admin, the optionally stored minter, and the vesting token balance of
the vesting contract's own address (the only balance `mint` touches — the
token client mints to `env.current_contract_address()`). -/
structure VestingState where
  admin : Nat
  minter : Option MinterInfo
  contractBalance : Int
deriving DecidableEq, Repr

/-- `Vesting::mint` (contracts/vesting/src/contract.rs, lines 196-245):
rejects `amount <= 0` with `InvalidMintAmount`; requires a stored minter
(`MinterNotFound`) whose address equals the sender (`NotAuthorized`);
`mint_capacity.checked_sub(amount as u128)` must succeed
(`NotEnoughCapacity`); then mints `amount` to the contract's own address and
stores the minter back with the reduced capacity.  A `panic_with_error`
aborts the transaction, so `.error` carries no state. -/
def Vesting.mint (st : VestingState) (sender : Nat) (amount : Int) :
    Except VestingError VestingState :=
  if amount ≤ 0 then .error .InvalidMintAmount
  else
    match st.minter with
    | none => .error .MinterNotFound
    | some minter =>
      if sender ≠ minter.address then .error .NotAuthorized
      else if minter.mint_capacity < amount.toNat then .error .NotEnoughCapacity
      else
        .ok { st with
              contractBalance := st.contractBalance + amount,
              minter := some ⟨minter.address, minter.mint_capacity - amount.toNat⟩ }

/-- `Vesting::update_minter` (contracts/vesting/src/contract.rs, lines
247-275): the sender must be the stored minter's address, or the admin when
no minter is stored (`NotAuthorized` otherwise); the new minter is stored
with `current_minter.map_or(0, |m| m.mint_capacity)` as its capacity. -/
def Vesting.update_minter (st : VestingState) (sender new_minter : Nat) :
    Except VestingError VestingState :=
  let is_authorized := match st.minter with
    | some current_minter => sender == current_minter.address
    | none => sender == st.admin
  if !is_authorized then .error .NotAuthorized
  else
    let mint_capacity := match st.minter with
      | some m => m.mint_capacity
      | none => 0
    .ok { st with minter := some ⟨new_minter, mint_capacity⟩ }

/-- The per-address vesting record as `query_available_to_claim` reads it:
the stored `balance : u128` and the vesting curve of its
`distribution_info`.  The curve comes from the external `curve` crate, so it
is abstracted as its value function `timestamp ↦ vested amount : u128`. -/
structure VestingInfo where
  balance : Nat
  curveValue : Nat → Nat

/-- `Vesting::query_available_to_claim` (contracts/vesting/src/contract.rs,
lines 331-344): evaluates the curve at the current ledger timestamp and
returns `balance.checked_sub(vested)` cast to `i128`, panicking with
`NotEnoughBalance` when the subtraction underflows. -/
def Vesting.query_available_to_claim (info : VestingInfo) (now : Nat) :
    Except VestingError Int :=
  let vested := info.curveValue now
  if info.balance < vested then .error .NotEnoughBalance
  else .ok (Int.ofNat (info.balance - vested))

/-- The reserve-consistency property of §3/§8 of the spec, strengthened to
the inductive invariant actually preserved by the operations: a pool is
either fully empty or has strictly positive reserves and shares. -/
def PoolConsistent (p : Pool) : Prop :=
  (p.reserve_a = 0 ∧ p.reserve_b = 0 ∧ p.total_shares = 0) ∨
  (0 < p.reserve_a ∧ 0 < p.reserve_b ∧ 0 < p.total_shares)

/-- Modelled from the spec: the reachable pool states — deployment with zero
reserves and zero shares, followed by any sequence of successful
`provide_liquidity`, `withdraw_liquidity` and `swap` calls (a failed call
rolls the transaction back and leaves the state as it was). -/
inductive ReachablePool : Pool → Prop where
  | deployed : ∀ a b f sl sp, ReachablePool ⟨a, b, 0, 0, 0, f, sl, sp⟩
  | provided : ∀ p p' da ma db mb dl now aa ab sh, ReachablePool p →
      provideLiquidity p da ma db mb dl now = .ok (p', aa, ab, sh) → ReachablePool p'
  | withdrawn : ∀ p p' s ma mb aa ab, ReachablePool p →
      withdrawLiquidity p s ma mb = .ok (p', aa, ab) → ReachablePool p'
  | swapped : ∀ p p' asset amt out, ReachablePool p →
      poolSwap p asset amt = .ok (p', out) → ReachablePool p'

/-- C6: a `Router.swap` with a route containing zero legs fails with
`OperationsEmpty`, and the returned world and balances are exactly the
pre-call ones — no pool reserve and no balance is modified. -/
theorem router_swap_empty_route_operations_empty
    (w : List Pool) (bal : Balances) (trader recipient : Nat) (amount : Int) :
    routerSwap w bal trader recipient [] amount = ((w, bal), .error .OperationsEmpty) :=
  rfl

/-- C2: three 1:1 pools A-B, B-C, C-D, each with reserves 1,000,000/1,000,000
and zero fee (spreads and slippage bounds as in the multihop test); a router
swap of the three-leg route with input 50 succeeds with output exactly 50,
the recipient's asset-D balance goes from 0 to 50 and the trader's asset-A
balance from 50 to 0. -/
theorem router_swap_three_equal_pools_delivers_fifty :
    (routerSwap
        [⟨0, 1, 1000000, 1000000, 1000000, 0, 5000, 500⟩,
         ⟨1, 2, 1000000, 1000000, 1000000, 0, 4000, 400⟩,
         ⟨2, 3, 1000000, 1000000, 1000000, 0, 4000, 400⟩]
        (fun a u => if a = 0 ∧ u = 10 then 50 else 0) 10 11
        [⟨0, 1⟩, ⟨1, 2⟩, ⟨2, 3⟩] 50).2 = .ok 50 ∧
    ((routerSwap
        [⟨0, 1, 1000000, 1000000, 1000000, 0, 5000, 500⟩,
         ⟨1, 2, 1000000, 1000000, 1000000, 0, 4000, 400⟩,
         ⟨2, 3, 1000000, 1000000, 1000000, 0, 4000, 400⟩]
        (fun a u => if a = 0 ∧ u = 10 then 50 else 0) 10 11
        [⟨0, 1⟩, ⟨1, 2⟩, ⟨2, 3⟩] 50).1.2) 3 11 = 50 ∧
    ((routerSwap
        [⟨0, 1, 1000000, 1000000, 1000000, 0, 5000, 500⟩,
         ⟨1, 2, 1000000, 1000000, 1000000, 0, 4000, 400⟩,
         ⟨2, 3, 1000000, 1000000, 1000000, 0, 4000, 400⟩]
        (fun a u => if a = 0 ∧ u = 10 then 50 else 0) 10 11
        [⟨0, 1⟩, ⟨1, 2⟩, ⟨2, 3⟩] 50).1.2) 0 10 = 0 :=
  ⟨rfl, rfl, rfl⟩

/-- C3: on a non-empty 1:1 pool with reserves 1,000,000/1,000,000, a
single-sided `provide_liquidity` of desired_a = 100,000 with no desired_b
synthesizes the B side proportionally from current reserves — exactly
100,000 here — and both reserves increase by the realized amounts. -/
theorem provide_liquidity_single_sided_matches_reserves :
    provideLiquidity ⟨0, 1, 1000000, 1000000, 1000000, 0, 5000, 500⟩
        (some 100000) none none none none 0 =
      .ok (⟨0, 1, 1100000, 1100000, 1100000, 0, 5000, 500⟩, 100000, 100000, 100000) :=
  rfl

/-- C4: a pool with reserves (100, 100) and 100 total shares: withdrawing 50
shares with both minimums at 50 returns (50, 50) and leaves reserves (50, 50)
with 50 shares; withdrawing the remaining 50 shares returns (50, 50) again
and drains the pool to (0, 0) with zero shares. -/
theorem withdraw_liquidity_halves_then_drains :
    withdrawLiquidity ⟨0, 1, 100, 100, 100, 0, 5000, 500⟩ 50 50 50 =
      .ok (⟨0, 1, 50, 50, 50, 0, 5000, 500⟩, 50, 50) ∧
    withdrawLiquidity ⟨0, 1, 50, 50, 50, 0, 5000, 500⟩ 50 50 50 =
      .ok (⟨0, 1, 0, 0, 0, 0, 5000, 500⟩, 50, 50) :=
  ⟨rfl, rfl⟩

/-- C8: full case analysis of `Vesting::mint` — `InvalidMintAmount` for
non-positive amounts, `MinterNotFound` without a stored minter,
`NotAuthorized` when the sender is not the stored minter's address,
`NotEnoughCapacity` when the amount (as `u128`) exceeds the stored capacity;
on success exactly `amount` tokens are minted to the vesting contract's own
address and the stored capacity drops by exactly `amount`. -/
theorem vesting_mint_characterization (st : VestingState) (sender : Nat) (amount : Int) :
    (amount ≤ 0 → Vesting.mint st sender amount = .error .InvalidMintAmount) ∧
    (0 < amount → st.minter = none →
      Vesting.mint st sender amount = .error .MinterNotFound) ∧
    (∀ m, 0 < amount → st.minter = some m → sender ≠ m.address →
      Vesting.mint st sender amount = .error .NotAuthorized) ∧
    (∀ m, 0 < amount → st.minter = some m → sender = m.address →
      m.mint_capacity < amount.toNat →
      Vesting.mint st sender amount = .error .NotEnoughCapacity) ∧
    (∀ m, 0 < amount → st.minter = some m → sender = m.address →
      amount.toNat ≤ m.mint_capacity →
      Vesting.mint st sender amount = .ok { st with
        contractBalance := st.contractBalance + amount,
        minter := some ⟨m.address, m.mint_capacity - amount.toNat⟩ }) := by
  refine ⟨?_, ?_, ?_, ?_, ?_⟩
  · intro h
    simp [Vesting.mint, h]
  · intro h hm
    simp [Vesting.mint, hm, not_le.mpr h]
  · intro m h hm hs
    simp [Vesting.mint, hm, not_le.mpr h, hs]
  · intro m h hm hs hcap
    simp [Vesting.mint, hm, not_le.mpr h, hs, hcap]
  · intro m h hm hs hcap
    simp [Vesting.mint, hm, not_le.mpr h, hs, not_lt.mpr hcap]

/-- C8 witness: with minter address 7 and capacity 100, a mint of 40 by the
minter succeeds, credits the contract balance by 40 and leaves capacity 60. -/
theorem vesting_mint_characterization_witness :
    Vesting.mint ⟨0, some ⟨7, 100⟩, 0⟩ 7 40 =
      .ok ⟨0, some ⟨7, 60⟩, 40⟩ :=
  (vesting_mint_characterization ⟨0, some ⟨7, 100⟩, 0⟩ 7 40).2.2.2.2
    ⟨7, 100⟩ (by decide) rfl rfl (by decide)

/-- C9: `query_available_to_claim` returns the stored vesting balance minus
the curve's value at the current ledger timestamp, and fails with
`NotEnoughBalance` exactly when the curve value exceeds the stored balance
(checked subtraction, never wrapping). -/
theorem query_available_to_claim_checked (info : VestingInfo) (now : Nat) :
    (info.curveValue now ≤ info.balance →
      Vesting.query_available_to_claim info now =
        .ok (Int.ofNat (info.balance - info.curveValue now))) ∧
    (info.balance < info.curveValue now →
      Vesting.query_available_to_claim info now = .error .NotEnoughBalance) := by
  constructor
  · intro h
    simp [Vesting.query_available_to_claim, not_lt.mpr h]
  · intro h
    simp [Vesting.query_available_to_claim, h]

/-- C9 witness: with stored balance 10 and the identity curve, at timestamp 3
the available amount is 7. -/
theorem query_available_to_claim_checked_witness :
    Vesting.query_available_to_claim ⟨10, fun t => t⟩ 3 = .ok 7 :=
  (query_available_to_claim_checked ⟨10, fun t => t⟩ 3).1 (by decide)

/-- C10: `update_minter` is authorized exactly for the stored minter's
address — or for the admin when no minter is stored — and on success the new
minter inherits the previous minter's `mint_capacity` unchanged (capacity 0
when no minter was stored); every other sender gets `NotAuthorized`. -/
theorem update_minter_inherits_capacity (st : VestingState) (sender new_minter : Nat) :
    (∀ m, st.minter = some m → sender = m.address →
      Vesting.update_minter st sender new_minter =
        .ok { st with minter := some ⟨new_minter, m.mint_capacity⟩ }) ∧
    (st.minter = none → sender = st.admin →
      Vesting.update_minter st sender new_minter =
        .ok { st with minter := some ⟨new_minter, 0⟩ }) ∧
    (∀ m, st.minter = some m → sender ≠ m.address →
      Vesting.update_minter st sender new_minter = .error .NotAuthorized) ∧
    (st.minter = none → sender ≠ st.admin →
      Vesting.update_minter st sender new_minter = .error .NotAuthorized) := by
  refine ⟨?_, ?_, ?_, ?_⟩
  · intro m hm hs
    simp [Vesting.update_minter, hm, hs]
  · intro hm hs
    simp [Vesting.update_minter, hm, hs]
  · intro m hm hs
    simp [Vesting.update_minter, hm, hs]
  · intro hm hs
    simp [Vesting.update_minter, hm, hs]

/-- C10 witness: a stored minter at address 7 with capacity 55 hands the
minter role to address 9, which inherits capacity 55 exactly. -/
theorem update_minter_inherits_capacity_witness :
    Vesting.update_minter ⟨0, some ⟨7, 55⟩, 0⟩ 7 9 = .ok ⟨0, some ⟨9, 55⟩, 0⟩ :=
  (update_minter_inherits_capacity ⟨0, some ⟨7, 55⟩, 0⟩ 7 9).1 ⟨7, 55⟩ rfl rfl

/-- C1: atomicity of `Router.swap` — whenever the call reports any failure
(empty route, discontinuous route, unresolved pool, or any hop's swap
failing on spread, asset mismatch or otherwise), the returned world and
balances are exactly the pre-call ones: every pool's reserves and
total_shares and every holder's balance are unchanged; only a fully
successful call returns a mutated world. -/
theorem router_swap_failure_leaves_state_unchanged
    (w : List Pool) (bal : Balances) (trader recipient : Nat)
    (legs : List SwapLeg) (amount : Int) (e : ContractError)
    (h : (routerSwap w bal trader recipient legs amount).2 = .error e) :
    (routerSwap w bal trader recipient legs amount).1 = (w, bal) := by
  cases legs with
  | nil => rfl
  | cons leg rest =>
    by_cases hc : chainContinuous (leg :: rest)
    · cases hE : execHops w (leg :: rest) amount with
      | error e' => simp [routerSwap, hc, hE]
      | ok res =>
        exfalso
        simp [routerSwap, hc, hE] at h
    · simp [routerSwap, hc]

/-- C1 witness: a one-leg route over an empty world fails with
`PoolNotFound`, and the world and balances are returned untouched. -/
theorem router_swap_failure_leaves_state_unchanged_witness :
    (routerSwap [] (fun _ _ => 0) 0 1 [⟨0, 1⟩] 50).2 = .error .PoolNotFound ∧
    (routerSwap [] (fun _ _ => 0) 0 1 [⟨0, 1⟩] 50).1 = ([], fun _ _ => 0) :=
  ⟨rfl, router_swap_failure_leaves_state_unchanged [] (fun _ _ => 0) 0 1
    [⟨0, 1⟩] 50 .PoolNotFound rfl⟩

/-- C7: seeding an empty pool (`total_shares == 0`) requires both desired
amounts present and strictly positive: a single-sided provide (either side
missing), a provide with both sides missing, and a provide where a present
desired amount is not strictly positive all fail with `InvalidAmount`; the
`.error` result carries no pool, so the state is unchanged. -/
theorem provide_liquidity_empty_pool_requires_both_assets :
    (∀ (a b : Nat) (ra rb f sl sp da : Int) (ma mb : Option Int) (now : Nat),
      provideLiquidity ⟨a, b, ra, rb, 0, f, sl, sp⟩ (some da) ma none mb none now =
        .error .InvalidAmount) ∧
    (∀ (a b : Nat) (ra rb f sl sp db : Int) (ma mb : Option Int) (now : Nat),
      provideLiquidity ⟨a, b, ra, rb, 0, f, sl, sp⟩ none ma (some db) mb none now =
        .error .InvalidAmount) ∧
    (∀ (a b : Nat) (ra rb f sl sp : Int) (ma mb : Option Int) (now : Nat),
      provideLiquidity ⟨a, b, ra, rb, 0, f, sl, sp⟩ none ma none mb none now =
        .error .InvalidAmount) ∧
    (∀ (a b : Nat) (ra rb f sl sp da db : Int) (ma mb : Option Int) (now : Nat),
      da ≤ 0 →
      provideLiquidity ⟨a, b, ra, rb, 0, f, sl, sp⟩ (some da) ma (some db) mb none now =
        .error .InvalidAmount) ∧
    (∀ (a b : Nat) (ra rb f sl sp da db : Int) (ma mb : Option Int) (now : Nat),
      db ≤ 0 →
      provideLiquidity ⟨a, b, ra, rb, 0, f, sl, sp⟩ (some da) ma (some db) mb none now =
        .error .InvalidAmount) := by
  refine ⟨?_, ?_, ?_, ?_, ?_⟩
  · intro a b ra rb f sl sp da ma mb now
    by_cases hda : da ≤ 0 <;> simp [provideLiquidity, hda]
  · intro a b ra rb f sl sp db ma mb now
    by_cases hdb : db ≤ 0 <;> simp [provideLiquidity, hdb]
  · intro a b ra rb f sl sp ma mb now
    simp [provideLiquidity]
  · intro a b ra rb f sl sp da db ma mb now hda
    by_cases hdb : db ≤ 0 <;> simp [provideLiquidity, hda, hdb]
  · intro a b ra rb f sl sp da db ma mb now hdb
    by_cases hda : da ≤ 0 <;> simp [provideLiquidity, hda, hdb]

/-- C7 witness: on an empty pool, a provide with desired amounts 0 and 5
fails with `InvalidAmount`. -/
theorem provide_liquidity_empty_pool_requires_both_assets_witness :
    provideLiquidity ⟨0, 1, 0, 0, 0, 0, 5000, 500⟩ (some 0) none (some 5) none none 0 =
      .error .InvalidAmount :=
  provide_liquidity_empty_pool_requires_both_assets.2.2.2.1
    0 1 0 0 0 5000 500 0 5 none none 0 (by decide)

theorem initialShares_pos (x y : Int) (hx : 0 < x) (hy : 0 < y) :
    0 < initialShares x y := by
  have h1 : 0 < x.toNat := by omega
  have h2 : 0 < y.toNat := by omega
  have h3 : 0 < Nat.sqrt (x.toNat * y.toNat) := Nat.sqrt_pos.mpr (Nat.mul_pos h1 h2)
  simpa [initialShares] using h3

theorem consistent_add (p : Pool) (A B S : Int)
    (h1 : 0 < p.reserve_a) (h2 : 0 < p.reserve_b) (h3 : 0 < p.total_shares)
    (hA : 0 ≤ A) (hB : 0 ≤ B) (hS : 0 ≤ S) :
    PoolConsistent { p with reserve_a := p.reserve_a + A,
                            reserve_b := p.reserve_b + B,
                            total_shares := p.total_shares + S } :=
  Or.inr ⟨by simp only; omega, by simp only; omega, by simp only; omega⟩

theorem provide_deadline_irrelevant (p : Pool) (da ma db mb : Option Int)
    (d now : Nat) (hd : ¬ d < now) :
    provideLiquidity p da ma db mb (some d) now =
      provideLiquidity p da ma db mb none now := by
  simp [provideLiquidity, hd]

theorem provide_ok_consistent_core (p : Pool) (da ma db mb : Option Int)
    (now : Nat) (p' : Pool) (aa ab sh : Int) (hc : PoolConsistent p)
    (h : provideLiquidity p da ma db mb none now = .ok (p', aa, ab, sh)) :
    PoolConsistent p' := by
  have hdiv : ∀ (u v w : Int), 0 ≤ u → 0 ≤ v → 0 ≤ w → 0 ≤ u * v / w :=
    fun u v w hu hv hw => Int.ediv_nonneg (mul_nonneg hu hv) hw
  rcases da with _ | x <;> rcases db with _ | y
  · -- no desired amount at all: always an error
    by_cases hT : p.total_shares = 0 <;> simp [provideLiquidity, hT] at h
  · -- only desired_b = some y
    by_cases hy : y ≤ 0
    · simp [provideLiquidity, hy] at h
    by_cases hT : p.total_shares = 0
    · simp [provideLiquidity, hy, hT] at h
    rcases hc with ⟨h1, h2, h3⟩ | ⟨h1, h2, h3⟩
    · exact absurd h3 hT
    simp [provideLiquidity, hy, hT] at h
    split at h
    · exact absurd h (by simp)
    simp only [Except.ok.injEq, Prod.mk.injEq] at h
    obtain ⟨hp, -⟩ := h
    subst hp
    exact consistent_add p _ _ _ h1 h2 h3
      (hdiv y p.reserve_a p.reserve_b (by omega) h1.le h2.le) (by omega)
      (hdiv p.total_shares (y * p.reserve_a / p.reserve_b) p.reserve_a h3.le
        (hdiv y p.reserve_a p.reserve_b (by omega) h1.le h2.le) h1.le)
  · -- only desired_a = some x
    by_cases hx : x ≤ 0
    · simp [provideLiquidity, hx] at h
    by_cases hT : p.total_shares = 0
    · simp [provideLiquidity, hx, hT] at h
    rcases hc with ⟨h1, h2, h3⟩ | ⟨h1, h2, h3⟩
    · exact absurd h3 hT
    simp [provideLiquidity, hx, hT] at h
    split at h
    · exact absurd h (by simp)
    simp only [Except.ok.injEq, Prod.mk.injEq] at h
    obtain ⟨hp, -⟩ := h
    subst hp
    exact consistent_add p _ _ _ h1 h2 h3 (by omega)
      (hdiv x p.reserve_b p.reserve_a (by omega) h2.le h1.le)
      (hdiv p.total_shares x p.reserve_a h3.le (by omega) h1.le)
  · -- both sides desired
    by_cases hx : x ≤ 0
    · simp [provideLiquidity, hx] at h
    by_cases hy : y ≤ 0
    · simp [provideLiquidity, hx, hy] at h
    by_cases hT : p.total_shares = 0
    · -- seeding an empty pool
      simp [provideLiquidity, hx, hy, hT] at h
      split at h
      · exact absurd h (by simp)
      simp only [Except.ok.injEq, Prod.mk.injEq] at h
      obtain ⟨hp, -⟩ := h
      subst hp
      exact Or.inr ⟨by simp only; omega, by simp only; omega,
        initialShares_pos x y (by omega) (by omega)⟩
    rcases hc with ⟨h1, h2, h3⟩ | ⟨h1, h2, h3⟩
    · exact absurd h3 hT
    by_cases hbm : x * p.reserve_b / p.reserve_a ≤ y
    · simp [provideLiquidity, hx, hy, hT, hbm] at h
      split at h
      · exact absurd h (by simp)
      simp only [Except.ok.injEq, Prod.mk.injEq] at h
      obtain ⟨hp, -⟩ := h
      subst hp
      exact consistent_add p _ _ _ h1 h2 h3 (by omega)
        (hdiv x p.reserve_b p.reserve_a (by omega) h2.le h1.le)
        (hdiv p.total_shares x p.reserve_a h3.le (by omega) h1.le)
    · simp [provideLiquidity, hx, hy, hT, hbm] at h
      split at h
      · exact absurd h (by simp)
      simp only [Except.ok.injEq, Prod.mk.injEq] at h
      obtain ⟨hp, -⟩ := h
      subst hp
      exact consistent_add p _ _ _ h1 h2 h3
        (hdiv y p.reserve_a p.reserve_b (by omega) h1.le h2.le) (by omega)
        (hdiv p.total_shares (y * p.reserve_a / p.reserve_b) p.reserve_a h3.le
          (hdiv y p.reserve_a p.reserve_b (by omega) h1.le h2.le) h1.le)

theorem provide_ok_consistent (p : Pool) (da ma db mb : Option Int) (dl : Option Nat)
    (now : Nat) (p' : Pool) (aa ab sh : Int) (hc : PoolConsistent p)
    (h : provideLiquidity p da ma db mb dl now = .ok (p', aa, ab, sh)) :
    PoolConsistent p' := by
  rcases dl with _ | d
  · exact provide_ok_consistent_core p da ma db mb now p' aa ab sh hc h
  · by_cases hd : d < now
    · simp [provideLiquidity, hd] at h
    · rw [provide_deadline_irrelevant p da ma db mb d now hd] at h
      exact provide_ok_consistent_core p da ma db mb now p' aa ab sh hc h

theorem withdraw_ok_consistent (p : Pool) (s ma mb : Int) (p' : Pool) (aa ab : Int)
    (hc : PoolConsistent p)
    (h : withdrawLiquidity p s ma mb = .ok (p', aa, ab)) : PoolConsistent p' := by
  by_cases hs : s ≤ 0
  · simp [withdrawLiquidity, hs] at h
  by_cases hT : p.total_shares < s
  · simp [withdrawLiquidity, hs, hT] at h
  rcases hc with ⟨h1, h2, h3⟩ | ⟨h1, h2, h3⟩
  · exact absurd hT (by omega)
  simp [withdrawLiquidity, hs, hT] at h
  split at h
  · exact absurd h (by simp)
  simp only [Except.ok.injEq, Prod.mk.injEq] at h
  obtain ⟨hp, -⟩ := h
  subst hp
  by_cases hfull : s = p.total_shares
  · subst hfull
    refine Or.inl ⟨?_, ?_, ?_⟩ <;> simp only
    · rw [Int.mul_ediv_cancel _ (by omega : p.total_shares ≠ 0)]; omega
    · rw [Int.mul_ediv_cancel _ (by omega : p.total_shares ≠ 0)]; omega
    · omega
  · have hlt : s < p.total_shares := by omega
    have hda : p.reserve_a * s / p.total_shares < p.reserve_a :=
      (Int.ediv_lt_iff_lt_mul h3).mpr (mul_lt_mul_of_pos_left hlt h1)
    have hdb : p.reserve_b * s / p.total_shares < p.reserve_b :=
      (Int.ediv_lt_iff_lt_mul h3).mpr (mul_lt_mul_of_pos_left hlt h2)
    refine Or.inr ⟨?_, ?_, ?_⟩ <;> simp only <;> omega

theorem poolSwapIn_ok (p : Pool) (r_in r_out amt rin rout o : Int)
    (h : poolSwapIn p r_in r_out amt = .ok (rin, rout, o)) :
    rin = r_in + amt ∧ rout = r_out - o ∧ 0 < o ∧ o < r_out := by
  simp only [poolSwapIn] at h
  split at h
  · exact absurd h (by simp)
  split at h
  · exact absurd h (by simp)
  rename_i hguard hspread
  simp only [Except.ok.injEq, Prod.mk.injEq] at h
  obtain ⟨hrin, hrout, ho⟩ := h
  subst hrin; subst hrout; subst ho
  push_neg at hguard
  exact ⟨rfl, rfl, hguard.1, hguard.2⟩

theorem swap_ok_consistent (p : Pool) (asset : Nat) (amt : Int) (p' : Pool) (out : Int)
    (hc : PoolConsistent p) (h : poolSwap p asset amt = .ok (p', out)) :
    PoolConsistent p' := by
  by_cases ha : amt ≤ 0
  · simp [poolSwap, ha] at h
  by_cases hT : p.total_shares = 0
  · simp [poolSwap, ha, hT] at h
  rcases hc with ⟨h1, h2, h3⟩ | ⟨h1, h2, h3⟩
  · exact absurd h3 hT
  by_cases hA : asset = p.asset_a
  · subst hA
    cases hE : poolSwapIn p p.reserve_a p.reserve_b amt with
    | error e => simp [poolSwap, ha, hT, hE] at h
    | ok res =>
      obtain ⟨rin, rout, o⟩ := res
      obtain ⟨hrin, hrout, ho1, ho2⟩ := poolSwapIn_ok p _ _ _ _ _ _ hE
      simp [poolSwap, ha, hT, hE] at h
      obtain ⟨hp, -⟩ := h
      subst hp
      exact Or.inr ⟨by simp only; omega, by simp only; omega, h3⟩
  · by_cases hB : asset = p.asset_b
    · subst hB
      cases hE : poolSwapIn p p.reserve_b p.reserve_a amt with
      | error e => simp [poolSwap, ha, hT, hA, hE] at h
      | ok res =>
        obtain ⟨rin, rout, o⟩ := res
        obtain ⟨hrin, hrout, ho1, ho2⟩ := poolSwapIn_ok p _ _ _ _ _ _ hE
        simp [poolSwap, ha, hT, hA, hE] at h
        obtain ⟨hp, -⟩ := h
        subst hp
        exact Or.inr ⟨by simp only; omega, by simp only; omega, h3⟩
    · simp [poolSwap, ha, hT, hA, hB] at h

theorem reachable_pool_consistent (p : Pool) (h : ReachablePool p) : PoolConsistent p := by
  induction h with
  | deployed a b f sl sp => exact Or.inl ⟨rfl, rfl, rfl⟩
  | provided p q da ma db mb dl now aa ab sh hr hok ih =>
    exact provide_ok_consistent p da ma db mb dl now q aa ab sh ih hok
  | withdrawn p q s ma mb aa ab hr hok ih =>
    exact withdraw_ok_consistent p s ma mb q aa ab ih hok
  | swapped p q asset amt out hr hok ih =>
    exact swap_ok_consistent p asset amt q out ih hok

/-- C5: in every reachable pool state — after any sequence of successful
`provide_liquidity`, `withdraw_liquidity` and `swap` calls starting from
deployment (a failed call rolls back and changes nothing) —
`reserve_a == 0 ⟺ reserve_b == 0 ⟺ total_shares == 0`: the pool is always
either fully empty or fully funded. -/
theorem reachable_pool_reserve_consistency (p : Pool) (h : ReachablePool p) :
    (p.reserve_a = 0 ↔ p.reserve_b = 0) ∧ (p.reserve_b = 0 ↔ p.total_shares = 0) := by
  rcases reachable_pool_consistent p h with ⟨h1, h2, h3⟩ | ⟨h1, h2, h3⟩ <;>
    exact ⟨by omega, by omega⟩

/-- C5 witness: the freshly deployed pool is reachable and satisfies the
reserve-consistency biconditionals. -/
theorem reachable_pool_reserve_consistency_witness :
    ReachablePool ⟨0, 1, 0, 0, 0, 0, 5000, 500⟩ ∧
    (((⟨0, 1, 0, 0, 0, 0, 5000, 500⟩ : Pool).reserve_a = 0 ↔
        (⟨0, 1, 0, 0, 0, 0, 5000, 500⟩ : Pool).reserve_b = 0) ∧
      ((⟨0, 1, 0, 0, 0, 0, 5000, 500⟩ : Pool).reserve_b = 0 ↔
        (⟨0, 1, 0, 0, 0, 0, 5000, 500⟩ : Pool).total_shares = 0)) :=
  ⟨.deployed 0 1 0 5000 500,
    reachable_pool_reserve_consistency _ (.deployed 0 1 0 5000 500)⟩
